import Mathlib

/-!
Verification of the AgentHarvest extraction/normalization pipeline.

This file gives a shallow embedding of the pipeline code
(`agentharvest/__init__.py`, `agentharvest/core/scrapers/models.py`,
`agentharvest/core/scrapers/zillow/__init__.py`, `processors.py`,
`parsers.py`, `history.py`) and proves properties about it.

Modelling conventions:
* Python `Optional[T]` becomes `Option T`; Python `float` ratings become `ℚ`
  (the properties at stake depend only on the ordered-field structure);
  Python `int` becomes `Int` (or `Nat` where pydantic validators force
  non-negativity, e.g. `limit`/`offset`).
* Python truthiness (`or` fallbacks, `if xs:` guards) is modelled explicitly:
  `none`, empty strings, empty lists and zero are falsy.
* Network and randomness are oracles: an `Env` record supplies the page
  fetcher, the shuffle permutation and the per-agent profile-fetch outcome.
* Media-URL fields (`photo_url`, `logo_url`), the nested
  `profile_data`/`review_information`/`recent_sales`/`reviews`/`licenses`
  payloads and the progress callback are omitted from the record model:
  no claim inspects them and no modelled operation reads them.
-/

/-- Enum `AgentType` from `models.py`. -/
inductive AgentType
  | solo
  | team
  | broker
  deriving DecidableEq

/-- The string `value` of an `AgentType` member (`use_enum_values` output). -/
def AgentType.val : AgentType → String
  | .solo => "solo"
  | .team => "team"
  | .broker => "broker"

/-- The `Agent` record from `models.py`, restricted to the fields the
modelled operations read or write (see the module docstring for the omitted
media/nested fields).  Summary-tier fields first, then profile-tier fields. -/
structure Agent where
  agent_id : String
  profile_url : String
  name : String
  brokerage_name : Option String := none
  is_top_agent : Bool := false
  is_team : Bool := false
  agent_type : Option AgentType := none
  rating : Option ℚ := none
  rating_text : Option String := none
  review_count : Int := 0
  price_range : Option String := none
  price_range_min : Option String := none
  price_range_max : Option String := none
  sales_last_12_months : Option Int := none
  total_sales : Option Int := none
  tags : List String := []
  years_experience_min : Option Int := none
  -- profile tier
  phone : Option String := none
  email : Option String := none
  website : Option String := none
  address : Option String := none
  city : Option String := none
  state : Option String := none
  zip_code : Option String := none
  title : Option String := none
  years_experience : Option Int := none
  specialties : List String := []
  languages : List String := []
  certifications : List String := []
  biography : Option String := none
  brokerage_phone : Option String := none
  brokerage_address : Option String := none
  active_listings : Option Int := none
  for_sale_listings : Option Int := none
  for_rent_listings : Option Int := none
  total_listings : Option Int := none
  neighborhoods_served : List String := []
  market_expertise : List String := []
  deriving DecidableEq

/-- The `SearchInput` record from `models.py` (criteria of a search).
`limit` and `offset` carry pydantic validators `ge=1`/`ge=0`, hence `Nat`. -/
structure SearchInput where
  state : Option String := none
  city : Option String := none
  zip_code : Option String := none
  location_slug : Option String := none
  rating_min : Option ℚ := none
  review_count_min : Option Int := none
  sales_min : Option Int := none
  sales_max : Option Int := none
  years_experience_min : Option Int := none
  specialties : Option (List String) := none
  languages : Option (List String) := none
  is_top_agent : Option Bool := none
  exclude_teams : Bool := false
  agent_type : Option AgentType := none
  limit : Nat := 100
  offset : Nat := 0
  fetch_profiles : Bool := false
  deriving DecidableEq

/-- Python truthiness of an optional string: `None` and `""` are falsy. -/
def truthyStr : Option String → Bool
  | none => false
  | some s => s ≠ ""

/-- Python truthiness of an optional list: `None` and `[]` are falsy. -/
def truthyList : Option (List String) → Bool
  | none => false
  | some l => l ≠ []

/-- `SearchInput.validate_location` from `models.py`:
`any([self.state, self.city, self.zip_code, self.location_slug])`. -/
def SearchInput.validate_location (si : SearchInput) : Bool :=
  truthyStr si.state || truthyStr si.city || truthyStr si.zip_code ||
    truthyStr si.location_slug

/-! ## `processors.py` -/

/-- Rating stage of `apply_filters`: keep agents with
`rating is not None and rating >= rating_min`, when the criterion is set. -/
def filterRating (si : SearchInput) (l : List Agent) : List Agent :=
  match si.rating_min with
  | none => l
  | some r => l.filter fun a =>
      match a.rating with
      | none => false
      | some x => decide (r ≤ x)

/-- Review-count stage of `apply_filters`. -/
def filterReviewCount (si : SearchInput) (l : List Agent) : List Agent :=
  match si.review_count_min with
  | none => l
  | some m => l.filter fun a => decide (m ≤ a.review_count)

/-- Sales floor stage of `apply_filters` (trailing-12-month window). -/
def filterSalesMin (si : SearchInput) (l : List Agent) : List Agent :=
  match si.sales_min with
  | none => l
  | some m => l.filter fun a =>
      match a.sales_last_12_months with
      | none => false
      | some x => decide (m ≤ x)

/-- Sales ceiling stage of `apply_filters` (trailing-12-month window). -/
def filterSalesMax (si : SearchInput) (l : List Agent) : List Agent :=
  match si.sales_max with
  | none => l
  | some m => l.filter fun a =>
      match a.sales_last_12_months with
      | none => false
      | some x => decide (x ≤ m)

/-- Experience floor stage of `apply_filters`. -/
def filterYears (si : SearchInput) (l : List Agent) : List Agent :=
  match si.years_experience_min with
  | none => l
  | some m => l.filter fun a =>
      match a.years_experience_min with
      | none => false
      | some x => decide (m ≤ x)

/-- Top-agent stage of `apply_filters`: equality with the requested flag. -/
def filterTopAgent (si : SearchInput) (l : List Agent) : List Agent :=
  match si.is_top_agent with
  | none => l
  | some b => l.filter fun a => a.is_top_agent == b

/-- Exclude-teams stage of `apply_filters`. -/
def filterExcludeTeams (si : SearchInput) (l : List Agent) : List Agent :=
  if si.exclude_teams then l.filter fun a => !a.is_team else l

/-- Agent-type stage of `apply_filters`. -/
def filterAgentType (si : SearchInput) (l : List Agent) : List Agent :=
  match si.agent_type with
  | none => l
  | some t => l.filter fun a => decide (a.agent_type = some t)

/-- Character-list prefix test (Python string containment helper). -/
def chPref : List Char → List Char → Bool
  | [], _ => true
  | _ :: _, [] => false
  | a :: as, b :: bs => a == b && chPref as bs

/-- Character-list substring test, the semantics of Python `needle in hay`
(the empty needle is contained in everything). -/
def chSub (needle : List Char) : List Char → Bool
  | [] => needle.isEmpty
  | c :: rest => chPref needle (c :: rest) || chSub needle rest

/-- Lowercasing of a character list (Python `str.lower`; `String.toLower`
is the same map but is not kernel-reducible in this toolchain). -/
def lowerChars (l : List Char) : List Char := l.map Char.toLower

/-- One specialty criterion matches when it is a case-insensitive substring
of the space-joined specialty list: `s.lower() in ' '.join(xs).lower()`. -/
def substrOfJoined (s : String) (xs : List String) : Bool :=
  chSub (lowerChars s.toList) (lowerChars (String.intercalate " " xs).toList)

/-- Specialties stage of `apply_filters`; skipped when the criterion is
`None` or the empty list (Python `if search_input.specialties:`). -/
def filterSpecialties (si : SearchInput) (l : List Agent) : List Agent :=
  if truthyList si.specialties then
    l.filter fun a =>
      (si.specialties.getD []).any fun s => substrOfJoined s a.specialties
  else l

/-- Languages stage of `apply_filters`; same truthiness guard. -/
def filterLanguages (si : SearchInput) (l : List Agent) : List Agent :=
  if truthyList si.languages then
    l.filter fun a =>
      (si.languages.getD []).any fun s => substrOfJoined s a.languages
  else l

/-- `apply_filters` from `processors.py`: the ten optional predicates applied
in source order. -/
def apply_filters (agents : List Agent) (si : SearchInput) : List Agent :=
  filterLanguages si (filterSpecialties si (filterAgentType si
    (filterExcludeTeams si (filterTopAgent si (filterYears si
      (filterSalesMax si (filterSalesMin si
        (filterReviewCount si (filterRating si agents)))))))))

/-- Recursive worker of `deduplicate_agents`: the `seen_ids` set is modelled
as the list of identities added so far. -/
def dedupAux (seen : List String) : List Agent → List Agent
  | [] => []
  | a :: rest =>
    if a.agent_id ∈ seen then dedupAux seen rest
    else a :: dedupAux (a.agent_id :: seen) rest

/-- `deduplicate_agents` from `processors.py`: first-occurrence-wins
deduplication keyed by `agent_id`. -/
def deduplicate_agents (agents : List Agent) : List Agent :=
  dedupAux [] agents

/-- Lexicographic `≤` on the `(is not None, value or 0)` sort-key pairs used
for nullable rational fields (`False` sorts before `True`). -/
def qKeyLe : Bool × ℚ → Bool × ℚ → Bool
  | (false, x), (false, y) => decide (x ≤ y)
  | (false, _), (true, _) => true
  | (true, _), (false, _) => false
  | (true, x), (true, y) => decide (x ≤ y)

/-- Lexicographic `≤` on the `(is not None, value or 0)` sort-key pairs used
for nullable integer fields. -/
def zKeyLe : Bool × Int → Bool × Int → Bool
  | (false, x), (false, y) => decide (x ≤ y)
  | (false, _), (true, _) => true
  | (true, _), (false, _) => false
  | (true, x), (true, y) => decide (x ≤ y)

/-- Sort key `lambda a: (a.rating is not None, a.rating or 0)`. -/
def ratingKey (a : Agent) : Bool × ℚ :=
  (a.rating.isSome, a.rating.getD 0)

/-- Sort key for `sales_last_12_months`. -/
def salesKey (a : Agent) : Bool × Int :=
  (a.sales_last_12_months.isSome, a.sales_last_12_months.getD 0)

/-- Sort key for `total_sales`. -/
def totalSalesKey (a : Agent) : Bool × Int :=
  (a.total_sales.isSome, a.total_sales.getD 0)

/-- The key names present in `sort_key_map` of `sort_agents`. -/
def knownSortKeys : List String :=
  ["rating", "review_count", "sales_last_12_months", "total_sales", "name"]

/-- Key comparison of `sort_agents`: compare two agents under the named sort
key; an unknown name falls back to the rating key (the `sort_by = 'rating'`
default in the source). -/
def keyLeB (sortBy : String) (a b : Agent) : Bool :=
  if sortBy = "review_count" then decide (a.review_count ≤ b.review_count)
  else if sortBy = "sales_last_12_months" then zKeyLe (salesKey a) (salesKey b)
  else if sortBy = "total_sales" then zKeyLe (totalSalesKey a) (totalSalesKey b)
  else if sortBy = "name" then decide (a.name.toLower ≤ b.name.toLower)
  else qKeyLe (ratingKey a) (ratingKey b)

/-- Python `sorted(key=k, reverse=d)` is the unique stable sort for the
induced total preorder; `reverse=True` is the stable sort for the reversed
preorder.  This relation is the one the stable sort is taken over. -/
def sortRel (sortBy : String) (descending : Bool) (a b : Agent) : Prop :=
  (if descending then keyLeB sortBy b a else keyLeB sortBy a b) = true

instance (sortBy : String) (descending : Bool) :
    DecidableRel (sortRel sortBy descending) := fun a b => by
  unfold sortRel; infer_instance

/-- `sort_agents` from `processors.py`: Python's stable `sorted`, modelled by
insertion sort (stable sorts for a fixed total preorder agree on all lists). -/
def sort_agents (agents : List Agent) (sortBy : String) (descending : Bool) :
    List Agent :=
  agents.insertionSort (sortRel sortBy descending)

/-- `limit_results` from `processors.py`: the Python slice
`agents[offset : offset + limit]` for non-negative bounds. -/
def limit_results (agents : List Agent) (limit : Nat) (offset : Nat) :
    List Agent :=
  (agents.drop offset).take limit

/-! ## `parsers.py` -/

/-- Characters matched by the `[\d.]` class of the price pattern. -/
def isPriceChar (c : Char) : Bool := c.isDigit || c == '.'

/-- Whether a character is one of the magnitude suffixes `K`, `M`, `B`. -/
def isMagChar (c : Char) : Bool := c == 'K' || c == 'M' || c == 'B'

/-- Left-to-right scan of all non-overlapping matches of the dollar-amount
pattern of `parse_agent_card` (a dollar sign, a non-empty greedy run of
digits and dots, then an optional magnitude suffix), the semantics of
`re.findall` for that pattern. -/
def scanPricesGo : Nat → List Char → List String
  | _, [] => []
  | 0, _ :: _ => []
  | fuel + 1, c :: rest =>
    if c == '$' then
      let run := rest.takeWhile isPriceChar
      if run.isEmpty then scanPricesGo fuel rest
      else
        match rest.drop run.length with
        | [] => [String.mk ('$' :: run)]
        | d :: tail =>
          if isMagChar d then
            String.mk ('$' :: (run ++ [d])) :: scanPricesGo fuel tail
          else
            String.mk ('$' :: run) :: scanPricesGo fuel (d :: tail)
    else scanPricesGo fuel rest

/-- All matches, scanned with enough fuel (every step of `scanPricesGo`
consumes at least one character, so the input length suffices). -/
def scanPrices (l : List Char) : List String :=
  scanPricesGo l.length l

/-- The price-range part of the `profile_data` loop in `parse_agent_card`:
fold over `(label, data)` items; a label containing `'price range'` stores
the raw text and, when at least two dollar tokens match, the first two as
bounds.  The `elif` branches of the loop fill other fields and leave this
state untouched.  Result: `(price_range, price_range_min, price_range_max)`. -/
def priceFold (items : List (String × String)) :
    Option String × Option String × Option String :=
  items.foldl
    (fun st item =>
      let label := lowerChars item.1.toList
      if chSub "price range".toList label then
        match scanPrices item.2.toList with
        | p0 :: p1 :: _ => (some item.2, some p0, some p1)
        | _ => (some item.2, st.2.1, st.2.2)
      else st)
    (none, none, none)

/-- The profile-tier values computed by `parse_agent_profile` before the
final field-update block (the overlay, in the spec's terms).  The listing
counts are plain integers in the source (`0` when absent). -/
structure Overlay where
  phone : Option String := none
  email : Option String := none
  address : Option String := none
  city : Option String := none
  state : Option String := none
  zip_code : Option String := none
  title : Option String := none
  biography : Option String := none
  website : Option String := none
  brokerage_name : Option String := none
  agent_type : Option AgentType := none
  specialties : List String := []
  languages : List String := []
  certifications : List String := []
  years_experience : Option Int := none
  brokerage_phone : Option String := none
  brokerage_address : Option String := none
  active_listings : Int := 0
  for_sale_listings : Int := 0
  for_rent_listings : Int := 0
  total_listings : Int := 0
  neighborhoods_served : List String := []
  market_expertise : List String := []
  deriving DecidableEq

/-- Python `x or y` for an optional string `x`: `None` and `""` are falsy. -/
def pyOrStr (x fb : Option String) : Option String :=
  match x with
  | none => fb
  | some s => if s = "" then fb else some s

/-- Python `x or y` for an optional integer `x`: `None` and `0` are falsy. -/
def pyOrInt (x fb : Option Int) : Option Int :=
  match x with
  | none => fb
  | some n => if n = 0 then fb else some n

/-- Python `x or y` for a list `x`: `[]` is falsy. -/
def pyOrList (x fb : List String) : List String :=
  if x = [] then fb else x

/-- Python `x if x else y` for a plain integer written into an optional
field: `0` is falsy. -/
def pyIntoOpt (x : Int) (fb : Option Int) : Option Int :=
  if x = 0 then fb else some x

/-- The field-update block at the end of `parse_agent_profile`
(`agent.phone = phone or agent.phone`, ..., the merge of the profile-tier
overlay onto the summary-tier record). -/
def applyProfileOverlay (o : Overlay) (a : Agent) : Agent :=
  { a with
    phone := pyOrStr o.phone a.phone
    email := pyOrStr o.email a.email
    address := pyOrStr o.address a.address
    city := pyOrStr o.city a.city
    state := pyOrStr o.state a.state
    zip_code := pyOrStr o.zip_code a.zip_code
    title := pyOrStr o.title a.title
    biography := pyOrStr o.biography a.biography
    website := pyOrStr o.website a.website
    brokerage_name := pyOrStr o.brokerage_name a.brokerage_name
    agent_type := match o.agent_type with
      | some t => some t
      | none => a.agent_type
    specialties := pyOrList o.specialties a.specialties
    languages := pyOrList o.languages a.languages
    certifications := pyOrList o.certifications a.certifications
    years_experience := pyOrInt o.years_experience a.years_experience
    brokerage_phone := pyOrStr o.brokerage_phone a.brokerage_phone
    brokerage_address := pyOrStr o.brokerage_address a.brokerage_address
    active_listings := pyIntoOpt o.active_listings a.active_listings
    for_sale_listings := pyIntoOpt o.for_sale_listings a.for_sale_listings
    for_rent_listings := pyIntoOpt o.for_rent_listings a.for_rent_listings
    total_listings := pyIntoOpt o.total_listings a.total_listings
    neighborhoods_served :=
      pyOrList o.neighborhoods_served a.neighborhoods_served
    market_expertise := pyOrList o.market_expertise a.market_expertise }

/-! ## Scheduler and pipeline (`zillow/__init__.py`, `__init__.py`) -/

/-- Failure kinds a page fetch/parse can surface inside the pagination
loop. -/
inductive PageErr
  | structureChanged
  | httpError
  deriving DecidableEq

/-- Run-level failure kinds of the pipeline. -/
inductive ScrapeErr
  | invalidCriteria
  | structureChanged
  | httpError
  | internal
  deriving DecidableEq

deriving instance DecidableEq for Except

/-- External collaborators of one run: the page fetcher (page number to
parsed agents plus the `total_results` metadata, or a failure), the shuffle
the detail phase draws, and the per-agent profile-fetch outcome. -/
structure Env where
  page : Nat → Except PageErr (List Agent × Int)
  shuffle : List Agent → List Agent
  profile : Agent → Except Unit Agent

/-- Python `dict` insertion (`d[k] = v`): overwrite in place or append. -/
def dictInsert (d : List (String × Agent)) (k : String) (v : Agent) :
    List (String × Agent) :=
  if d.any fun p => p.1 == k then
    d.map fun p => if p.1 == k then (k, v) else p
  else d ++ [(k, v)]

/-- Python `dict` lookup. -/
def dictLookup (d : List (String × Agent)) (k : String) : Option Agent :=
  (d.find? fun p => p.1 == k).map fun p => p.2

/-- The value stored for one agent in `_fetch_all_profiles`: the enhanced
agent on success, the untouched summary-tier agent when the per-record
fetch raises. -/
def profileResult (env : Env) (a : Agent) : Agent :=
  match env.profile a with
  | .ok e => e
  | .error _ => a

/-- `_fetch_all_profiles`: shuffle, fetch each shuffled agent once into a
dict keyed by `agent_id`, then rebuild the list in original input order by
identity.  `none` models the `KeyError` raised when an identity is missing
from the dict; the `Nat` is the number of profile fetches attempted. -/
def fetchAllProfiles (env : Env) (agents : List Agent) :
    Option (List Agent) × Nat :=
  let shuffled := env.shuffle agents
  let d := shuffled.foldl
    (fun d a => dictInsert d a.agent_id (profileResult env a)) []
  (agents.mapM fun a => dictLookup d a.agent_id, shuffled.length)

/-- The `max_pages = 100` safety ceiling of the pagination loop. -/
def maxPages : Nat := 100

/-- The pagination loop of `search_agents`: fetch page after page while the
accumulated list is short of `limit` and the ceiling is not reached; stop on
an empty page, on reaching `limit`, or once `total_results` is covered.  A
page failure propagates and aborts the loop.  The `Nat` counts page fetches
performed. -/
def paginateGo (si : SearchInput) (env : Env) :
    Nat → Nat → List Agent → Except PageErr (List Agent) × Nat
  | 0, _, acc => (.ok acc, 0)
  | fuel + 1, page, acc =>
    if acc.length < si.limit ∧ page ≤ maxPages then
      match env.page page with
      | .error e => (.error e, 1)
      | .ok (agents, total) =>
        if agents = [] then (.ok acc, 1)
        else
          let acc' := acc ++ agents
          if si.limit ≤ acc'.length then (.ok acc', 1)
          else if total ≤ (acc'.length : Int) then (.ok acc', 1)
          else
            let r := paginateGo si env fuel (page + 1) acc'
            (r.1, r.2 + 1)
    else (.ok acc, 0)

/-- The pagination phase started at page 1 with an empty accumulator; the
page counter rises by one per iteration and the loop condition bounds it by
`maxPages`, so `maxPages + 1` units of fuel are never exhausted. -/
def paginate (si : SearchInput) (env : Env) :
    Except PageErr (List Agent) × Nat :=
  paginateGo si env (maxPages + 1) 1 []

/-- `ZillowScraper.search_agents`: validate the location, paginate, apply
the client-side filters (with the agent-type criterion deferred), dedup,
sort by rating descending, slice, optionally run the detail-fetch phase,
then apply the deferred agent-type filter and re-truncate.  The `Nat`
counts fetches (page fetches plus profile fetches). -/
def searchAgents (si : SearchInput) (env : Env) :
    Except ScrapeErr (List Agent) × Nat :=
  if !si.validate_location then (.error .invalidCriteria, 0)
  else
    match paginate si env with
    | (.error .structureChanged, n) => (.error .structureChanged, n)
    | (.error .httpError, n) => (.error .httpError, n)
    | (.ok allAgents, n) =>
      -- the agent-type criterion forces `fetch_profiles` on
      let fp := si.fetch_profiles || si.agent_type.isSome
      -- the agent-type criterion is saved and disabled before filtering
      let saved := si.agent_type
      let si' := if saved.isSome then { si with agent_type := none } else si
      let filtered := apply_filters allAgents si'
      let unique := deduplicate_agents filtered
      let sorted := sort_agents unique "rating" true
      let limitToFetch :=
        if saved.isSome then min (si.limit * 3) sorted.length else si.limit
      let final := limit_results sorted limitToFetch si.offset
      let afterProfiles : Except ScrapeErr (List Agent) × Nat :=
        if fp then
          match fetchAllProfiles env final with
          | (none, m) => (.error .internal, n + m)
          | (some l, m) => (.ok l, n + m)
        else (.ok final, n)
      match afterProfiles with
      | (.error e, m) => (.error e, m)
      | (.ok l, m) =>
        match saved with
        | none => (.ok l, m)
        | some t =>
          (.ok ((l.filter fun a => decide (a.agent_type = some t)).take
            si.limit), m)

/-- `ScrapingHistory.filter_new`: drop agents whose identity is already in
the seen-set. -/
def filter_new (hist : List String) (agents : List Agent) : List Agent :=
  agents.filter fun a => !hist.contains a.agent_id

/-- The number of candidates `filter_new` drops as duplicates
(`duplicates = len(agents) - len(new_agents)` in the source, printed but
not returned). -/
def dupSkipped (hist : List String) (agents : List Agent) : Nat :=
  agents.length - (filter_new hist agents).length

/-- One row of the exported DataFrame (`_agents_to_dataframe`), with the
same per-column transforms as the source dict (badge text, joined lists,
stringified enum).  The media columns and the nested-payload count columns
are omitted, matching the record model. -/
structure Row where
  agent_id : String
  profile_url : String
  name : String
  brokerage_name : Option String
  agent_badge : Option String
  is_team : Bool
  agent_type : Option String
  rating : Option ℚ
  rating_text : Option String
  review_count : Int
  sales_last_12_months : Option Int
  total_sales : Option Int
  price_range : Option String
  price_range_min : Option String
  price_range_max : Option String
  tags : Option String
  years_experience_min : Option Int
  phone : Option String
  email : Option String
  website : Option String
  address : Option String
  city : Option String
  state : Option String
  zip_code : Option String
  title : Option String
  years_experience : Option Int
  specialties : Option String
  languages : Option String
  certifications : Option String
  biography : Option String
  brokerage_phone : Option String
  brokerage_address : Option String
  active_listings : Option Int
  for_sale_listings : Option Int
  for_rent_listings : Option Int
  total_listings : Option Int
  neighborhoods_served : Option String
  market_expertise : Option String
  deriving DecidableEq

/-- Python `', '.join(xs) if xs else None`. -/
def joinComma (xs : List String) : Option String :=
  if xs = [] then none else some (String.intercalate ", " xs)

/-- The row built for one agent by `_agents_to_dataframe`. -/
def toRow (a : Agent) : Row where
  agent_id := a.agent_id
  profile_url := a.profile_url
  name := a.name
  brokerage_name := a.brokerage_name
  agent_badge := if a.is_top_agent then some "ZILLOW PREMIER AGENT" else none
  is_team := a.is_team
  agent_type := a.agent_type.map AgentType.val
  rating := a.rating
  rating_text := a.rating_text
  review_count := a.review_count
  sales_last_12_months := a.sales_last_12_months
  total_sales := a.total_sales
  price_range := a.price_range
  price_range_min := a.price_range_min
  price_range_max := a.price_range_max
  tags := joinComma a.tags
  years_experience_min := a.years_experience_min
  phone := a.phone
  email := a.email
  website := pyOrStr a.website none
  address := a.address
  city := a.city
  state := a.state
  zip_code := a.zip_code
  title := a.title
  years_experience := a.years_experience
  specialties := joinComma a.specialties
  languages := joinComma a.languages
  certifications := joinComma a.certifications
  biography := a.biography
  brokerage_phone := a.brokerage_phone
  brokerage_address := a.brokerage_address
  active_listings := a.active_listings
  for_sale_listings := a.for_sale_listings
  for_rent_listings := a.for_rent_listings
  total_listings := a.total_listings
  neighborhoods_served := joinComma a.neighborhoods_served
  market_expertise := joinComma a.market_expertise

/-- `scrape_agent` from `agentharvest/__init__.py`: validate the location,
run the scraper, drop previously-seen identities when history tracking is
on, and return the DataFrame rows.  The returned pair is the function
result together with the fetch count; the duplicate-skip count is not part
of the return value (the source only prints it). -/
def scrape_agent (si : SearchInput) (skipScraped : Bool) (hist : List String)
    (env : Env) : Except ScrapeErr (List Row) × Nat :=
  if !si.validate_location then (.error .invalidCriteria, 0)
  else
    match searchAgents si env with
    | (.error e, n) => (.error e, n)
    | (.ok agents, n) =>
      let kept :=
        if skipScraped && !agents.isEmpty then filter_new hist agents
        else agents
      (.ok (kept.map toRow), n)

/-! ## Concrete fixtures used by witnesses and counterexamples -/

/-- A summary-tier agent with no rating. -/
def agAlice : Agent := { agent_id := "A", profile_url := "/a", name := "Alice" }

/-- A summary-tier agent with rating 5. -/
def agBob : Agent :=
  { agent_id := "B", profile_url := "/b", name := "Bob", rating := some 5 }

/-! ## C1: invalid criteria fail before any fetch -/

/-- Claim C1: for every criteria record with no location selector set
(state, city, zip code and location slug all absent), the pipeline entry
point fails with the invalid-criteria error, performs zero fetches, and
returns no records. -/
theorem scrape_agent_no_location_fails (si : SearchInput) (skip : Bool)
    (hist : List String) (env : Env)
    (hs : si.state = none) (hc : si.city = none) (hz : si.zip_code = none)
    (hl : si.location_slug = none) :
    scrape_agent si skip hist env = (.error .invalidCriteria, 0) := by
  have hv : si.validate_location = false := by
    simp [SearchInput.validate_location, hs, hc, hz, hl, truthyStr]
  simp [scrape_agent, hv]

/-- A page oracle that would hand out agents if it were ever consulted. -/
def envAvailable : Env where
  page := fun _ => .ok ([agAlice], 1)
  shuffle := id
  profile := fun a => .ok a

/-- Witness for C1 at the all-defaults criteria record. -/
theorem scrape_agent_no_location_fails_witness :
    ({} : SearchInput).state = none ∧
    scrape_agent {} true [] envAvailable = (.error .invalidCriteria, 0) :=
  ⟨rfl, scrape_agent_no_location_fails {} true [] envAvailable
    rfl rfl rfl rfl⟩

/-! ## C4: dedup is idempotent, non-lengthening, first-occurrence-wins -/

theorem dedupAux_length (seen : List String) (l : List Agent) :
    (dedupAux seen l).length ≤ l.length := by
  induction l generalizing seen with
  | nil => simp [dedupAux]
  | cons a rest ih =>
    by_cases h : a.agent_id ∈ seen
    · simp only [dedupAux, if_pos h, List.length_cons]
      exact le_trans (ih seen) (Nat.le_succ _)
    · simp only [dedupAux, if_neg h, List.length_cons]
      exact Nat.succ_le_succ (ih _)

theorem dedupAux_not_seen (seen : List String) (l : List Agent) :
    ∀ a ∈ dedupAux seen l, a.agent_id ∉ seen := by
  induction l generalizing seen with
  | nil => simp [dedupAux]
  | cons x rest ih =>
    by_cases h : x.agent_id ∈ seen
    · simpa only [dedupAux, if_pos h] using ih seen
    · simp only [dedupAux, if_neg h]
      intro a ha
      rcases List.mem_cons.mp ha with rfl | ha
      · exact h
      · have := ih (x.agent_id :: seen) a ha
        intro hmem
        exact this (List.mem_cons_of_mem _ hmem)

theorem dedupAux_nodup (seen : List String) (l : List Agent) :
    ((dedupAux seen l).map fun a => a.agent_id).Nodup := by
  induction l generalizing seen with
  | nil => simp [dedupAux]
  | cons x rest ih =>
    by_cases h : x.agent_id ∈ seen
    · simpa only [dedupAux, if_pos h] using ih seen
    · simp only [dedupAux, if_neg h, List.map_cons, List.nodup_cons]
      refine ⟨?_, ih _⟩
      intro hmem
      rcases List.mem_map.mp hmem with ⟨a, ha, hid⟩
      have := dedupAux_not_seen (x.agent_id :: seen) rest a ha
      exact this (by rw [hid]; exact List.mem_cons_self _ _)

theorem dedupAux_eq_self (seen : List String) (l : List Agent)
    (hnd : (l.map fun a => a.agent_id).Nodup)
    (hfresh : ∀ a ∈ l, a.agent_id ∉ seen) :
    dedupAux seen l = l := by
  induction l generalizing seen with
  | nil => rfl
  | cons x rest ih =>
    have hx : x.agent_id ∉ seen := hfresh x (List.mem_cons_self _ _)
    simp only [dedupAux, if_neg hx]
    simp only [List.map_cons, List.nodup_cons] at hnd
    congr 1
    refine ih _ hnd.2 ?_
    intro a ha hmem
    rcases List.mem_cons.mp hmem with hmem | hmem
    · exact hnd.1 (List.mem_map.mpr ⟨a, ha, hmem⟩)
    · exact hfresh a (List.mem_cons_of_mem _ ha) hmem

/-- The spec's description of dedup, written independently of the source:
keep exactly the first occurrence of each identity, in the order those
first occurrences appear. -/
def specFirstOccurrences (l : List Agent) : List Agent :=
  l.foldl
    (fun acc a =>
      if acc.any (fun b => b.agent_id == a.agent_id) then acc else acc ++ [a])
    []

theorem dedupAux_foldl (l : List Agent) :
    ∀ (acc : List Agent) (seen : List String),
      (∀ k, k ∈ seen ↔ acc.any (fun b => b.agent_id == k) = true) →
      l.foldl
        (fun acc a =>
          if acc.any (fun b => b.agent_id == a.agent_id) then acc
          else acc ++ [a]) acc = acc ++ dedupAux seen l := by
  induction l with
  | nil => intro acc seen _; simp [dedupAux]
  | cons x rest ih =>
    intro acc seen hinv
    by_cases h : x.agent_id ∈ seen
    · have hany : acc.any (fun b => b.agent_id == x.agent_id) = true :=
        (hinv x.agent_id).mp h
      simp only [List.foldl_cons, if_pos hany, dedupAux, if_pos h]
      exact ih acc seen hinv
    · have hany : ¬ acc.any (fun b => b.agent_id == x.agent_id) = true := by
        intro hc; exact h ((hinv x.agent_id).mpr hc)
      simp only [List.foldl_cons, if_neg hany, dedupAux, if_neg h]
      rw [ih (acc ++ [x]) (x.agent_id :: seen) ?_]
      · simp
      · intro k
        constructor
        · intro hk
          rcases List.mem_cons.mp hk with rfl | hk
          · simp [List.any_append]
          · have := (hinv k).mp hk
            simp [List.any_append, this]
        · intro hk
          simp only [List.any_append, Bool.or_eq_true] at hk
          rcases hk with hk | hk
          · exact List.mem_cons_of_mem _ ((hinv k).mpr hk)
          · simp only [List.any_cons, List.any_nil, Bool.or_false,
              beq_iff_eq] at hk
            rw [hk]
            exact List.mem_cons_self _ _

/-- Claim C4: deduplication is idempotent, never lengthens the list, and
returns exactly the first occurrence of each identity in first-appearance
order. -/
theorem deduplicate_agents_spec (L : List Agent) :
    deduplicate_agents (deduplicate_agents L) = deduplicate_agents L ∧
    (deduplicate_agents L).length ≤ L.length ∧
    deduplicate_agents L = specFirstOccurrences L := by
  refine ⟨?_, dedupAux_length [] L, ?_⟩
  · exact dedupAux_eq_self [] (deduplicate_agents L) (dedupAux_nodup [] L)
      (fun a ha h => (List.not_mem_nil _ h))
  · have := dedupAux_foldl L [] [] (by simp)
    simp only [List.nil_append] at this
    exact this.symm

/-! ## C10: price bounds need two dollar tokens -/

/-- Claim C10: in the price-range branch of the card parser, the raw text
is always stored; the min/max bounds are set only when at least two dollar
tokens match, and then to the first two tokens in order of appearance; with
fewer than two matches both bounds stay null. -/
theorem price_bounds_need_two_tokens (lbl t : String)
    (h : chSub "price range".toList (lowerChars lbl.toList) = true) :
    ((scanPrices t.toList).length < 2 →
      priceFold [(lbl, t)] = (some t, none, none)) ∧
    (∀ p0 p1 rest, scanPrices t.toList = p0 :: p1 :: rest →
      priceFold [(lbl, t)] = (some t, some p0, some p1)) := by
  constructor
  · intro hlen
    simp only [priceFold, List.foldl_cons, List.foldl_nil, h, if_true]
    cases hs : scanPrices t.toList with
    | nil => simp
    | cons p0 tl =>
      cases tl with
      | nil => simp
      | cons p1 tl' =>
        rw [hs] at hlen
        simp at hlen
        omega
  · intro p0 p1 rest hs
    simp only [priceFold, List.foldl_cons, List.foldl_nil, h, if_true, hs]

/-- Witness for C10: a single-token price text stores the raw text and no
bounds. -/
theorem price_bounds_need_two_tokens_witness :
    chSub "price range".toList (lowerChars "Price Range".toList) = true ∧
    priceFold [("Price Range", "$500K")] = (some "$500K", none, none) :=
  ⟨by decide,
    (price_bounds_need_two_tokens "Price Range" "$500K" (by decide)).1
      (by decide)⟩

/-! ## C2: merge precedence -/

/-- Python truthiness of an optional integer: `None` and `0` are falsy. -/
def truthyInt : Option Int → Bool
  | none => false
  | some n => n ≠ 0

/-- Per-field contract for an optional-string field of the merge: a truthy
overlay value replaces, a falsy one leaves the summary value, and a truthy
summary value never becomes falsy. -/
abbrev strFieldOk (ov sm res : Option String) : Prop :=
  (truthyStr ov = true → res = ov) ∧ (truthyStr ov = false → res = sm) ∧
    (truthyStr sm = true → truthyStr res = true)

/-- Per-field contract for a list field of the merge. -/
abbrev listFieldOk (ov sm res : List String) : Prop :=
  (ov ≠ [] → res = ov) ∧ (ov = [] → res = sm) ∧ (sm ≠ [] → res ≠ [])

/-- Per-field contract for an optional-integer field of the merge. -/
abbrev intFieldOk (ov sm res : Option Int) : Prop :=
  (truthyInt ov = true → res = ov) ∧ (truthyInt ov = false → res = sm) ∧
    (truthyInt sm = true → truthyInt res = true)

/-- Per-field contract for the enum field of the merge (an enum member is
always truthy in Python). -/
abbrev enumFieldOk (ov sm res : Option AgentType) : Prop :=
  (ov.isSome = true → res = ov) ∧ (ov = none → res = sm) ∧
    (sm.isSome = true → res.isSome = true)

/-- Per-field contract for a plain-integer overlay value written into an
optional field (the listing counts). -/
abbrev cntFieldOk (ov : Int) (sm res : Option Int) : Prop :=
  (ov ≠ 0 → res = some ov) ∧ (ov = 0 → res = sm) ∧
    (truthyInt sm = true → truthyInt res = true)

theorem pyOrStr_ok (ov sm : Option String) : strFieldOk ov sm (pyOrStr ov sm) := by
  rcases ov with _ | s
  · simp [strFieldOk, pyOrStr, truthyStr]
  · by_cases h : s = "" <;> simp [strFieldOk, pyOrStr, truthyStr, h]

theorem pyOrList_ok (ov sm : List String) : listFieldOk ov sm (pyOrList ov sm) := by
  by_cases h : ov = [] <;> simp [listFieldOk, pyOrList, h]

theorem pyOrInt_ok (ov sm : Option Int) : intFieldOk ov sm (pyOrInt ov sm) := by
  rcases ov with _ | n
  · simp [intFieldOk, pyOrInt, truthyInt]
  · by_cases h : n = 0 <;> simp [intFieldOk, pyOrInt, truthyInt, h]

theorem pyIntoOpt_ok (ov : Int) (sm : Option Int) :
    cntFieldOk ov sm (pyIntoOpt ov sm) := by
  by_cases h : ov = 0 <;> simp [cntFieldOk, pyIntoOpt, truthyInt, h]

theorem enumOr_ok (ov sm : Option AgentType) :
    enumFieldOk ov sm (match ov with | some t => some t | none => sm) := by
  rcases ov with _ | t <;> simp [enumFieldOk]

/-- Claim C2 (amended): the merge applies field-by-field precedence under
Python truthiness: a truthy overlay value (non-null and non-empty/non-zero)
replaces the summary value; a null, empty-string, empty-list or zero
overlay value leaves the summary value untouched; consequently a populated
summary-tier value is never overwritten with an empty or null value. -/
theorem applyProfileOverlay_precedence (o : Overlay) (a : Agent) :
    strFieldOk o.phone a.phone (applyProfileOverlay o a).phone ∧
    strFieldOk o.email a.email (applyProfileOverlay o a).email ∧
    strFieldOk o.address a.address (applyProfileOverlay o a).address ∧
    strFieldOk o.city a.city (applyProfileOverlay o a).city ∧
    strFieldOk o.state a.state (applyProfileOverlay o a).state ∧
    strFieldOk o.zip_code a.zip_code (applyProfileOverlay o a).zip_code ∧
    strFieldOk o.title a.title (applyProfileOverlay o a).title ∧
    strFieldOk o.biography a.biography (applyProfileOverlay o a).biography ∧
    strFieldOk o.website a.website (applyProfileOverlay o a).website ∧
    strFieldOk o.brokerage_name a.brokerage_name
      (applyProfileOverlay o a).brokerage_name ∧
    enumFieldOk o.agent_type a.agent_type
      (applyProfileOverlay o a).agent_type ∧
    listFieldOk o.specialties a.specialties
      (applyProfileOverlay o a).specialties ∧
    listFieldOk o.languages a.languages
      (applyProfileOverlay o a).languages ∧
    listFieldOk o.certifications a.certifications
      (applyProfileOverlay o a).certifications ∧
    intFieldOk o.years_experience a.years_experience
      (applyProfileOverlay o a).years_experience ∧
    strFieldOk o.brokerage_phone a.brokerage_phone
      (applyProfileOverlay o a).brokerage_phone ∧
    strFieldOk o.brokerage_address a.brokerage_address
      (applyProfileOverlay o a).brokerage_address ∧
    cntFieldOk o.active_listings a.active_listings
      (applyProfileOverlay o a).active_listings ∧
    cntFieldOk o.for_sale_listings a.for_sale_listings
      (applyProfileOverlay o a).for_sale_listings ∧
    cntFieldOk o.for_rent_listings a.for_rent_listings
      (applyProfileOverlay o a).for_rent_listings ∧
    cntFieldOk o.total_listings a.total_listings
      (applyProfileOverlay o a).total_listings ∧
    listFieldOk o.neighborhoods_served a.neighborhoods_served
      (applyProfileOverlay o a).neighborhoods_served ∧
    listFieldOk o.market_expertise a.market_expertise
      (applyProfileOverlay o a).market_expertise :=
  ⟨pyOrStr_ok _ _, pyOrStr_ok _ _, pyOrStr_ok _ _, pyOrStr_ok _ _,
    pyOrStr_ok _ _, pyOrStr_ok _ _, pyOrStr_ok _ _, pyOrStr_ok _ _,
    pyOrStr_ok _ _, pyOrStr_ok _ _, enumOr_ok _ _, pyOrList_ok _ _,
    pyOrList_ok _ _, pyOrList_ok _ _, pyOrInt_ok _ _, pyOrStr_ok _ _,
    pyOrStr_ok _ _, pyIntoOpt_ok _ _, pyIntoOpt_ok _ _, pyIntoOpt_ok _ _,
    pyIntoOpt_ok _ _, pyOrList_ok _ _, pyOrList_ok _ _⟩

/-- Witness for C2 (amended) at a concrete overlay and record: a truthy
overlay phone replaces the summary phone. -/
theorem applyProfileOverlay_precedence_witness :
    (applyProfileOverlay { phone := some "555" } agAlice).phone = some "555" :=
  (applyProfileOverlay_precedence { phone := some "555" } agAlice).1.1
    (by decide)

/-- An overlay whose email is the non-null empty string. -/
def oEmptyEmail : Overlay := { email := some "" }

/-- Counterexample to C2 as stated: the overlay email `some ""` is non-null,
yet merging it onto a record with a null email leaves the field null — the
non-null overlay value does not replace the summary value. -/
theorem merge_nonnull_overlay_email_vanishes :
    oEmptyEmail.email = some "" ∧ oEmptyEmail.email ≠ none ∧
    agAlice.email = none ∧
    (applyProfileOverlay oEmptyEmail agAlice).email = none := by decide

/-! ## C7 and C8: detail-fetch phase -/

theorem dictInsert_fresh (d : List (String × Agent)) (k : String) (v : Agent)
    (h : ∀ p ∈ d, p.1 ≠ k) : dictInsert d k v = d ++ [(k, v)] := by
  have : d.any (fun p => p.1 == k) = false := by
    rw [List.any_eq_false]
    intro p hp
    simpa using h p hp
  simp [dictInsert, this]

theorem foldl_dictInsert_fresh (f : Agent → Agent) (l : List Agent) :
    ∀ d : List (String × Agent),
      (∀ x ∈ l, ∀ p ∈ d, p.1 ≠ x.agent_id) →
      ((l.map fun a => a.agent_id).Nodup) →
      l.foldl (fun d a => dictInsert d a.agent_id (f a)) d =
        d ++ l.map fun a => (a.agent_id, f a) := by
  induction l with
  | nil => intro d _ _; simp
  | cons x rest ih =>
    intro d hfresh hnd
    simp only [List.map_cons, List.nodup_cons] at hnd
    have hstep : dictInsert d x.agent_id (f x) = d ++ [(x.agent_id, f x)] :=
      dictInsert_fresh d _ _
        (fun p hp => hfresh x (List.mem_cons_self _ _) p hp)
    simp only [List.foldl_cons, hstep]
    rw [ih (d ++ [(x.agent_id, f x)]) ?_ hnd.2]
    · simp
    · intro y hy p hp
      rcases List.mem_append.mp hp with hp | hp
      · exact hfresh y (List.mem_cons_of_mem _ hy) p hp
      · simp only [List.mem_singleton] at hp
        rw [hp]
        intro hc
        exact hnd.1 (List.mem_map.mpr ⟨y, hy, hc.symm⟩)

theorem dictLookup_map_of_mem (f : Agent → Agent) (l : List Agent)
    (a : Agent) (ha : a ∈ l) (hnd : (l.map fun x => x.agent_id).Nodup) :
    dictLookup (l.map fun x => (x.agent_id, f x)) a.agent_id = some (f a) := by
  induction l with
  | nil => cases ha
  | cons x rest ih =>
    simp only [List.map_cons, List.nodup_cons] at hnd
    rcases List.mem_cons.mp ha with rfl | ha
    · simp [dictLookup, List.find?]
    · have hne : x.agent_id ≠ a.agent_id := by
        intro hc
        exact hnd.1 (List.mem_map.mpr ⟨a, ha, hc.symm⟩)
      simp only [List.map_cons, dictLookup, List.find?]
      rw [show (x.agent_id == a.agent_id) = false by simpa using hne]
      exact ih ha hnd.2

theorem mapM_lookup_eq (g : Agent → Option Agent) (f : Agent → Agent) :
    ∀ l : List Agent, (∀ a ∈ l, g a = some (f a)) →
      l.mapM g = some (l.map f) := by
  intro l
  induction l with
  | nil => intro _; rfl
  | cons x rest ih =>
    intro h
    rw [List.mapM_cons, h x (List.mem_cons_self _ _),
      ih (fun a ha => h a (List.mem_cons_of_mem _ ha))]
    rfl

/-- Core lemma shared by the detail-fetch claims: when the shuffle is a
permutation and identities are distinct, the phase rebuilds exactly the
input list, in input order, with each record replaced by its per-record
fetch outcome. -/
theorem fetchAllProfiles_eq (env : Env) (agents : List Agent)
    (hperm : (env.shuffle agents).Perm agents)
    (hnd : (agents.map fun a => a.agent_id).Nodup) :
    (fetchAllProfiles env agents).1 =
      some (agents.map (profileResult env)) := by
  have hndS : ((env.shuffle agents).map fun a => a.agent_id).Nodup :=
    (hperm.map fun a => a.agent_id).nodup_iff.mpr hnd
  have hfold :
      (env.shuffle agents).foldl
        (fun d a => dictInsert d a.agent_id (profileResult env a)) [] =
        (env.shuffle agents).map fun a => (a.agent_id, profileResult env a) := by
    have := foldl_dictInsert_fresh (profileResult env) (env.shuffle agents)
      [] (by intro x _ p hp; cases hp) hndS
    simpa using this
  unfold fetchAllProfiles
  simp only [hfold]
  exact mapM_lookup_eq _ _ agents
    (fun a ha =>
      dictLookup_map_of_mem (profileResult env) (env.shuffle agents) a
        (hperm.mem_iff.mpr ha) hndS)

/-- Claim C7: with distinct identities, the detail-fetch phase fetches in
the shuffled order but returns exactly one merged record per input record,
restored to the original input order (keyed by identity). -/
theorem fetch_all_profiles_restores_order (env : Env) (agents : List Agent)
    (hperm : (env.shuffle agents).Perm agents)
    (hnd : (agents.map fun a => a.agent_id).Nodup) :
    (fetchAllProfiles env agents).1 =
      some (agents.map (profileResult env)) :=
  fetchAllProfiles_eq env agents hperm hnd

/-- Five records whose profile pages are fetched in shuffled order
3, 1, 4, 2, 5. -/
def agsFive : List Agent :=
  [{ agent_id := "1", profile_url := "/1", name := "a1" },
   { agent_id := "2", profile_url := "/2", name := "a2" },
   { agent_id := "3", profile_url := "/3", name := "a3" },
   { agent_id := "4", profile_url := "/4", name := "a4" },
   { agent_id := "5", profile_url := "/5", name := "a5" }]

/-- An environment that shuffles the five records to order 3, 1, 4, 2, 5 and
enhances each fetched profile with a phone number. -/
def envShuffled : Env where
  page := fun _ => .ok (agsFive, 5)
  shuffle := fun l =>
    match l with
    | [x1, x2, x3, x4, x5] => [x3, x1, x4, x2, x5]
    | l => l
  profile := fun a => .ok { a with phone := some "555" }

/-- Witness for C7: the 3,1,4,2,5 fetch order still yields output in the
original 1..5 identity order. -/
theorem fetch_all_profiles_restores_order_witness :
    (envShuffled.shuffle agsFive).Perm agsFive ∧
    (fetchAllProfiles envShuffled agsFive).1 =
      some (agsFive.map (profileResult envShuffled)) :=
  ⟨by decide,
    fetch_all_profiles_restores_order envShuffled agsFive (by decide)
      (by decide)⟩

/-- Claim C8: a per-record detail-fetch failure is contained: no exception
escapes the phase (the result is a list, not the `KeyError` case), the
failing record appears in the output unchanged (summary tier only), and
every other record completes with its own fetch outcome. -/
theorem per_record_failure_contained (env : Env) (agents : List Agent)
    (x : Agent) (hperm : (env.shuffle agents).Perm agents)
    (hnd : (agents.map fun a => a.agent_id).Nodup)
    (hx : x ∈ agents) (hfail : env.profile x = .error ()) :
    (fetchAllProfiles env agents).1 =
      some (agents.map (profileResult env)) ∧
    profileResult env x = x ∧
    x ∈ agents.map (profileResult env) := by
  have heq := fetchAllProfiles_eq env agents hperm hnd
  have hkeep : profileResult env x = x := by
    unfold profileResult
    rw [hfail]
  exact ⟨heq, hkeep, List.mem_map.mpr ⟨x, hx, hkeep⟩⟩

/-- An environment whose profile fetch fails for identity 3 only. -/
def envOneFail : Env where
  page := fun _ => .ok (agsFive, 5)
  shuffle := fun l =>
    match l with
    | [x1, x2, x3, x4, x5] => [x3, x1, x4, x2, x5]
    | l => l
  profile := fun a =>
    if a.agent_id = "3" then .error () else .ok { a with phone := some "555" }

/-- The record with identity 3 among the five fixtures. -/
def agThree : Agent := { agent_id := "3", profile_url := "/3", name := "a3" }

/-- Witness for C8: record 3 fails its detail fetch and is still returned
unchanged, in place, among the successfully enhanced records. -/
theorem per_record_failure_contained_witness :
    agThree ∈ agsFive ∧
    envOneFail.profile agThree = .error () ∧
    (fetchAllProfiles envOneFail agsFive).1 =
      some (agsFive.map (profileResult envOneFail)) ∧
    profileResult envOneFail agThree = agThree :=
  ⟨by decide, by decide,
    (per_record_failure_contained envOneFail agsFive agThree (by decide)
      (by decide) (by decide) (by decide)).1,
    (per_record_failure_contained envOneFail agsFive agThree (by decide)
      (by decide) (by decide) (by decide)).2.1⟩

/-! ## C3: sort behavior -/

theorem qKeyLe_total (x y : Bool × ℚ) :
    qKeyLe x y = true ∨ qKeyLe y x = true := by
  rcases x with ⟨b1, q1⟩; rcases y with ⟨b2, q2⟩
  cases b1 <;> cases b2 <;> simp [qKeyLe] <;> exact le_total q1 q2

theorem qKeyLe_trans {x y z : Bool × ℚ} (h1 : qKeyLe x y = true)
    (h2 : qKeyLe y z = true) : qKeyLe x z = true := by
  rcases x with ⟨b1, q1⟩; rcases y with ⟨b2, q2⟩; rcases z with ⟨b3, q3⟩
  cases b1 <;> cases b2 <;> cases b3 <;>
    simp only [qKeyLe, decide_eq_true_eq] at h1 h2 ⊢ <;>
    first
      | rfl
      | exact h1
      | exact h2
      | exact absurd h1 Bool.false_ne_true
      | exact absurd h2 Bool.false_ne_true
      | exact le_trans h1 h2

theorem zKeyLe_total (x y : Bool × Int) :
    zKeyLe x y = true ∨ zKeyLe y x = true := by
  rcases x with ⟨b1, q1⟩; rcases y with ⟨b2, q2⟩
  cases b1 <;> cases b2 <;> simp [zKeyLe] <;> exact le_total q1 q2

theorem zKeyLe_trans {x y z : Bool × Int} (h1 : zKeyLe x y = true)
    (h2 : zKeyLe y z = true) : zKeyLe x z = true := by
  rcases x with ⟨b1, q1⟩; rcases y with ⟨b2, q2⟩; rcases z with ⟨b3, q3⟩
  cases b1 <;> cases b2 <;> cases b3 <;>
    simp only [zKeyLe, decide_eq_true_eq] at h1 h2 ⊢ <;>
    first
      | rfl
      | exact h1
      | exact h2
      | exact absurd h1 Bool.false_ne_true
      | exact absurd h2 Bool.false_ne_true
      | exact le_trans h1 h2

theorem keyLeB_total (k : String) (a b : Agent) :
    keyLeB k a b = true ∨ keyLeB k b a = true := by
  unfold keyLeB
  split_ifs <;>
    first
      | exact zKeyLe_total _ _
      | exact qKeyLe_total _ _
      | (simp only [decide_eq_true_eq]; exact le_total _ _)

theorem keyLeB_trans (k : String) {a b c : Agent}
    (h1 : keyLeB k a b = true) (h2 : keyLeB k b c = true) :
    keyLeB k a c = true := by
  unfold keyLeB at h1 h2 ⊢
  split_ifs at h1 h2 ⊢ <;>
    first
      | exact zKeyLe_trans h1 h2
      | exact qKeyLe_trans h1 h2
      | (simp only [decide_eq_true_eq] at h1 h2 ⊢; exact le_trans h1 h2)

instance (k : String) (d : Bool) : IsTotal Agent (sortRel k d) := by
  constructor
  intro a b
  unfold sortRel
  cases d
  · simpa using keyLeB_total k a b
  · simpa using (keyLeB_total k b a)

instance (k : String) (d : Bool) : IsTrans Agent (sortRel k d) := by
  constructor
  intro a b c h1 h2
  unfold sortRel at h1 h2 ⊢
  cases d
  · simp only [Bool.false_eq_true, if_false] at h1 h2 ⊢
    exact keyLeB_trans k h1 h2
  · simp only [if_true] at h1 h2 ⊢
    exact keyLeB_trans k h2 h1

theorem orderedInsert_congr {r s : Agent → Agent → Prop} [DecidableRel r]
    [DecidableRel s] (hrs : ∀ a b, r a b ↔ s a b) (a : Agent) :
    ∀ l : List Agent, l.orderedInsert r a = l.orderedInsert s a
  | [] => rfl
  | b :: t => by
    simp only [List.orderedInsert]
    by_cases h : r a b
    · rw [if_pos h, if_pos ((hrs a b).mp h)]
    · rw [if_neg h, if_neg (fun hc => h ((hrs a b).mpr hc)),
        orderedInsert_congr hrs a t]

theorem insertionSort_congr {r s : Agent → Agent → Prop} [DecidableRel r]
    [DecidableRel s] (hrs : ∀ a b, r a b ↔ s a b) :
    ∀ l : List Agent, l.insertionSort r = l.insertionSort s
  | [] => rfl
  | b :: t => by
    simp only [List.insertionSort]
    rw [insertionSort_congr hrs t, orderedInsert_congr hrs b]

theorem keyLeB_unknown {k : String} (hk : k ∉ knownSortKeys) (a b : Agent) :
    keyLeB k a b = keyLeB "rating" a b := by
  simp only [knownSortKeys, List.mem_cons, List.not_mem_nil, or_false,
    not_or] at hk
  obtain ⟨h1, h2, h3, h4, h5⟩ := hk
  simp only [keyLeB, if_neg h2, if_neg h3, if_neg h4, if_neg h5]
  rfl

/-- Claim C3 (amended): sorting permutes the input; an unknown key name
falls back to the rating key but keeps the requested direction; for each
sort key whose field is nullable (rating, trailing-12-month sales, total
sales) records with a null field sort after all non-null records when
descending but before them when ascending; and the sort is stable (a pair
already in key order keeps its relative order, in particular ties keep
input order). -/
theorem sort_agents_spec (l : List Agent) (k : String) (d : Bool) :
    (sort_agents l k d).Perm l ∧
    (k ∉ knownSortKeys → sort_agents l k d = sort_agents l "rating" d) ∧
    ((sort_agents l "rating" true).Pairwise
      fun a b => a.rating = none → b.rating = none) ∧
    ((sort_agents l "rating" false).Pairwise
      fun a b => b.rating = none → a.rating = none) ∧
    ((sort_agents l "sales_last_12_months" true).Pairwise
      fun a b => a.sales_last_12_months = none →
        b.sales_last_12_months = none) ∧
    ((sort_agents l "sales_last_12_months" false).Pairwise
      fun a b => b.sales_last_12_months = none →
        a.sales_last_12_months = none) ∧
    ((sort_agents l "total_sales" true).Pairwise
      fun a b => a.total_sales = none → b.total_sales = none) ∧
    ((sort_agents l "total_sales" false).Pairwise
      fun a b => b.total_sales = none → a.total_sales = none) ∧
    (∀ a b, keyLeB k a b = true → keyLeB k b a = true →
      [a, b].Sublist l → [a, b].Sublist (sort_agents l k d)) := by
  refine ⟨?_, ?_, ?_, ?_, ?_, ?_, ?_, ?_, ?_⟩
  · exact List.perm_insertionSort _ l
  · intro hk
    unfold sort_agents
    refine insertionSort_congr (fun a b => ?_) l
    unfold sortRel
    rw [keyLeB_unknown hk, keyLeB_unknown hk]
  · have hs := List.sorted_insertionSort (sortRel "rating" true) l
    refine hs.imp ?_
    intro a b hab ha
    have h' : qKeyLe (ratingKey b) (ratingKey a) = true := hab
    cases hb : b.rating with
    | none => rfl
    | some q =>
      exfalso
      rw [show ratingKey b = (true, q) by simp [ratingKey, hb],
        show ratingKey a = (false, 0) by simp [ratingKey, ha]] at h'
      simp [qKeyLe] at h'
  · have hs := List.sorted_insertionSort (sortRel "rating" false) l
    refine hs.imp ?_
    intro a b hab hb
    have h' : qKeyLe (ratingKey a) (ratingKey b) = true := hab
    cases ha : a.rating with
    | none => rfl
    | some q =>
      exfalso
      rw [show ratingKey a = (true, q) by simp [ratingKey, ha],
        show ratingKey b = (false, 0) by simp [ratingKey, hb]] at h'
      simp [qKeyLe] at h'
  · have hs := List.sorted_insertionSort
      (sortRel "sales_last_12_months" true) l
    refine hs.imp ?_
    intro a b hab ha
    have h' : zKeyLe (salesKey b) (salesKey a) = true := hab
    cases hb : b.sales_last_12_months with
    | none => rfl
    | some q =>
      exfalso
      rw [show salesKey b = (true, q) by simp [salesKey, hb],
        show salesKey a = (false, 0) by simp [salesKey, ha]] at h'
      simp [zKeyLe] at h'
  · have hs := List.sorted_insertionSort
      (sortRel "sales_last_12_months" false) l
    refine hs.imp ?_
    intro a b hab hb
    have h' : zKeyLe (salesKey a) (salesKey b) = true := hab
    cases ha : a.sales_last_12_months with
    | none => rfl
    | some q =>
      exfalso
      rw [show salesKey a = (true, q) by simp [salesKey, ha],
        show salesKey b = (false, 0) by simp [salesKey, hb]] at h'
      simp [zKeyLe] at h'
  · have hs := List.sorted_insertionSort (sortRel "total_sales" true) l
    refine hs.imp ?_
    intro a b hab ha
    have h' : zKeyLe (totalSalesKey b) (totalSalesKey a) = true := hab
    cases hb : b.total_sales with
    | none => rfl
    | some q =>
      exfalso
      rw [show totalSalesKey b = (true, q) by simp [totalSalesKey, hb],
        show totalSalesKey a = (false, 0) by simp [totalSalesKey, ha]] at h'
      simp [zKeyLe] at h'
  · have hs := List.sorted_insertionSort (sortRel "total_sales" false) l
    refine hs.imp ?_
    intro a b hab hb
    have h' : zKeyLe (totalSalesKey a) (totalSalesKey b) = true := hab
    cases ha : a.total_sales with
    | none => rfl
    | some q =>
      exfalso
      rw [show totalSalesKey a = (true, q) by simp [totalSalesKey, ha],
        show totalSalesKey b = (false, 0) by simp [totalSalesKey, hb]] at h'
      simp [zKeyLe] at h'
  · intro a b t1 t2 hsub
    have hab : sortRel k d a b := by
      unfold sortRel
      cases d
      · simpa using t1
      · simpa using t2
    exact List.pair_sublist_insertionSort hab hsub

/-- Witness for C3 (amended), applied at the two fixture agents, an unknown
key and ascending direction. -/
theorem sort_agents_spec_witness :
    "bogus" ∉ knownSortKeys ∧
    sort_agents [agAlice, agBob] "bogus" false =
      sort_agents [agAlice, agBob] "rating" false :=
  ⟨by decide, (sort_agents_spec [agAlice, agBob] "bogus" false).2.1
    (by decide)⟩

/-- Counterexample to C3 as stated: under the unknown key name and the
ascending direction, the null-rating record sorts first, not after the
rated record, and the fallback is not rating-descending (which would put
the rated record first). -/
theorem sort_agents_null_first_ascending :
    agAlice.rating = none ∧ agBob.rating = some 5 ∧
    sort_agents [agAlice, agBob] "bogus" false = [agAlice, agBob] ∧
    sort_agents [agAlice, agBob] "rating" true = [agBob, agAlice] := by
  decide


/-! ## C5: filter monotonicity -/

/-- Predicate form of the rating stage. -/
def ratingPredB (si : SearchInput) (a : Agent) : Bool :=
  match si.rating_min with
  | none => true
  | some r =>
    match a.rating with
    | none => false
    | some x => decide (r ≤ x)

/-- Predicate form of the review-count stage. -/
def reviewPredB (si : SearchInput) (a : Agent) : Bool :=
  match si.review_count_min with
  | none => true
  | some m => decide (m ≤ a.review_count)

/-- Predicate form of the sales-floor stage. -/
def salesMinPredB (si : SearchInput) (a : Agent) : Bool :=
  match si.sales_min with
  | none => true
  | some m =>
    match a.sales_last_12_months with
    | none => false
    | some x => decide (m ≤ x)

/-- Predicate form of the sales-ceiling stage. -/
def salesMaxPredB (si : SearchInput) (a : Agent) : Bool :=
  match si.sales_max with
  | none => true
  | some m =>
    match a.sales_last_12_months with
    | none => false
    | some x => decide (x ≤ m)

/-- Predicate form of the experience-floor stage. -/
def yearsPredB (si : SearchInput) (a : Agent) : Bool :=
  match si.years_experience_min with
  | none => true
  | some m =>
    match a.years_experience_min with
    | none => false
    | some x => decide (m ≤ x)

/-- Predicate form of the top-agent stage. -/
def topPredB (si : SearchInput) (a : Agent) : Bool :=
  match si.is_top_agent with
  | none => true
  | some b => a.is_top_agent == b

/-- Predicate form of the exclude-teams stage. -/
def teamsPredB (si : SearchInput) (a : Agent) : Bool :=
  if si.exclude_teams then !a.is_team else true

/-- Predicate form of the agent-type stage. -/
def typePredB (si : SearchInput) (a : Agent) : Bool :=
  match si.agent_type with
  | none => true
  | some t => decide (a.agent_type = some t)

/-- Predicate form of the specialties stage. -/
def specPredB (si : SearchInput) (a : Agent) : Bool :=
  if truthyList si.specialties then
    (si.specialties.getD []).any fun s => substrOfJoined s a.specialties
  else true

/-- Predicate form of the languages stage. -/
def langPredB (si : SearchInput) (a : Agent) : Bool :=
  if truthyList si.languages then
    (si.languages.getD []).any fun s => substrOfJoined s a.languages
  else true

/-- The conjunction of the ten stage predicates, nested in the shape the
stage composition produces. -/
def matchesFilters (si : SearchInput) (a : Agent) : Bool :=
  langPredB si a && (specPredB si a && (typePredB si a && (teamsPredB si a &&
    (topPredB si a && (yearsPredB si a && (salesMaxPredB si a &&
      (salesMinPredB si a && (reviewPredB si a && ratingPredB si a))))))))

/-- A boolean-guarded filter stage is a plain filter whose predicate
accepts everything when the guard is off. -/
theorem boolStage_eq (b : Bool) (p : Agent → Bool) (l : List Agent) :
    (if b then l.filter p else l) =
      l.filter fun a => if b then p a else true := by
  cases b <;> simp

theorem filterRating_eq (si : SearchInput) (l : List Agent) :
    filterRating si l = l.filter (ratingPredB si) := by
  cases h : si.rating_min with
  | none =>
    simp only [filterRating, h]
    exact (List.filter_true _).symm.trans
      (List.filter_congr fun a _ => by simp [ratingPredB, h])
  | some m =>
    simp only [filterRating, h]
    exact List.filter_congr fun a _ => by simp [ratingPredB, h]

theorem filterReviewCount_eq (si : SearchInput) (l : List Agent) :
    filterReviewCount si l = l.filter (reviewPredB si) := by
  cases h : si.review_count_min with
  | none =>
    simp only [filterReviewCount, h]
    exact (List.filter_true _).symm.trans
      (List.filter_congr fun a _ => by simp [reviewPredB, h])
  | some m =>
    simp only [filterReviewCount, h]
    exact List.filter_congr fun a _ => by simp [reviewPredB, h]

theorem filterSalesMin_eq (si : SearchInput) (l : List Agent) :
    filterSalesMin si l = l.filter (salesMinPredB si) := by
  cases h : si.sales_min with
  | none =>
    simp only [filterSalesMin, h]
    exact (List.filter_true _).symm.trans
      (List.filter_congr fun a _ => by simp [salesMinPredB, h])
  | some m =>
    simp only [filterSalesMin, h]
    exact List.filter_congr fun a _ => by simp [salesMinPredB, h]

theorem filterSalesMax_eq (si : SearchInput) (l : List Agent) :
    filterSalesMax si l = l.filter (salesMaxPredB si) := by
  cases h : si.sales_max with
  | none =>
    simp only [filterSalesMax, h]
    exact (List.filter_true _).symm.trans
      (List.filter_congr fun a _ => by simp [salesMaxPredB, h])
  | some m =>
    simp only [filterSalesMax, h]
    exact List.filter_congr fun a _ => by simp [salesMaxPredB, h]

theorem filterYears_eq (si : SearchInput) (l : List Agent) :
    filterYears si l = l.filter (yearsPredB si) := by
  cases h : si.years_experience_min with
  | none =>
    simp only [filterYears, h]
    exact (List.filter_true _).symm.trans
      (List.filter_congr fun a _ => by simp [yearsPredB, h])
  | some m =>
    simp only [filterYears, h]
    exact List.filter_congr fun a _ => by simp [yearsPredB, h]

theorem filterTopAgent_eq (si : SearchInput) (l : List Agent) :
    filterTopAgent si l = l.filter (topPredB si) := by
  cases h : si.is_top_agent with
  | none =>
    simp only [filterTopAgent, h]
    exact (List.filter_true _).symm.trans
      (List.filter_congr fun a _ => by simp [topPredB, h])
  | some b =>
    simp only [filterTopAgent, h]
    exact List.filter_congr fun a _ => by simp [topPredB, h]

theorem filterExcludeTeams_eq (si : SearchInput) (l : List Agent) :
    filterExcludeTeams si l = l.filter (teamsPredB si) :=
  boolStage_eq si.exclude_teams (fun a => !a.is_team) l

theorem filterAgentType_eq (si : SearchInput) (l : List Agent) :
    filterAgentType si l = l.filter (typePredB si) := by
  cases h : si.agent_type with
  | none =>
    simp only [filterAgentType, h]
    exact (List.filter_true _).symm.trans
      (List.filter_congr fun a _ => by simp [typePredB, h])
  | some t =>
    simp only [filterAgentType, h]
    exact List.filter_congr fun a _ => by simp [typePredB, h]

theorem filterSpecialties_eq (si : SearchInput) (l : List Agent) :
    filterSpecialties si l = l.filter (specPredB si) :=
  boolStage_eq (truthyList si.specialties)
    (fun a => (si.specialties.getD []).any fun s =>
      substrOfJoined s a.specialties) l

theorem filterLanguages_eq (si : SearchInput) (l : List Agent) :
    filterLanguages si l = l.filter (langPredB si) :=
  boolStage_eq (truthyList si.languages)
    (fun a => (si.languages.getD []).any fun s =>
      substrOfJoined s a.languages) l

theorem apply_filters_eq (l : List Agent) (si : SearchInput) :
    apply_filters l si = l.filter (matchesFilters si) := by
  unfold apply_filters
  rw [filterRating_eq, filterReviewCount_eq, filterSalesMin_eq,
    filterSalesMax_eq, filterYears_eq, filterTopAgent_eq,
    filterExcludeTeams_eq, filterAgentType_eq, filterSpecialties_eq,
    filterLanguages_eq]
  simp only [List.filter_filter]
  rfl

/-- One criteria record tightens another when they differ in exactly one
filter criterion: a floor is raised (or newly set), a ceiling is lowered
(or newly set), or a previously-disabled predicate is enabled. -/
inductive Tightens : SearchInput → SearchInput → Prop
  | rating_min (c : SearchInput) (r' : ℚ)
      (h : ∀ r, c.rating_min = some r → r ≤ r') :
      Tightens c { c with rating_min := some r' }
  | review_count_min (c : SearchInput) (m' : Int)
      (h : ∀ m, c.review_count_min = some m → m ≤ m') :
      Tightens c { c with review_count_min := some m' }
  | sales_min (c : SearchInput) (m' : Int)
      (h : ∀ m, c.sales_min = some m → m ≤ m') :
      Tightens c { c with sales_min := some m' }
  | sales_max (c : SearchInput) (m' : Int)
      (h : ∀ m, c.sales_max = some m → m' ≤ m) :
      Tightens c { c with sales_max := some m' }
  | years_experience_min (c : SearchInput) (m' : Int)
      (h : ∀ m, c.years_experience_min = some m → m ≤ m') :
      Tightens c { c with years_experience_min := some m' }
  | is_top_agent (c : SearchInput) (b : Bool) (h : c.is_top_agent = none) :
      Tightens c { c with is_top_agent := some b }
  | exclude_teams (c : SearchInput) (h : c.exclude_teams = false) :
      Tightens c { c with exclude_teams := true }
  | agent_type (c : SearchInput) (t : AgentType) (h : c.agent_type = none) :
      Tightens c { c with agent_type := some t }
  | specialties (c : SearchInput) (s' : Option (List String))
      (h : truthyList c.specialties = false) :
      Tightens c { c with specialties := s' }
  | languages (c : SearchInput) (s' : Option (List String))
      (h : truthyList c.languages = false) :
      Tightens c { c with languages := s' }

theorem matchesFilters_mono {c c' : SearchInput} (ht : Tightens c c') :
    ∀ a, matchesFilters c' a = true → matchesFilters c a = true := by
  cases ht with
  | rating_min r' h =>
    intro a hm
    simp only [matchesFilters, Bool.and_eq_true] at hm ⊢
    obtain ⟨h10, h9, h8, h7, h6, h5, h4, h3, h2, h1⟩ := hm
    refine ⟨h10, h9, h8, h7, h6, h5, h4, h3, h2, ?_⟩
    cases hc : c.rating_min with
    | none => simp [ratingPredB, hc]
    | some r =>
      have h1' : ratingPredB { c with rating_min := some r' } a = true := h1
      simp only [ratingPredB] at h1' ⊢
      rw [hc]
      cases ha : a.rating with
      | none => rw [ha] at h1'; exact h1'
      | some x =>
        rw [ha] at h1'
        simp only [decide_eq_true_eq] at h1' ⊢
        exact le_trans (h r hc) h1'
  | review_count_min m' h =>
    intro a hm
    simp only [matchesFilters, Bool.and_eq_true] at hm ⊢
    obtain ⟨h10, h9, h8, h7, h6, h5, h4, h3, h2, h1⟩ := hm
    refine ⟨h10, h9, h8, h7, h6, h5, h4, h3, ?_, h1⟩
    cases hc : c.review_count_min with
    | none => simp [reviewPredB, hc]
    | some m =>
      have h2' : reviewPredB { c with review_count_min := some m' } a =
        true := h2
      simp only [reviewPredB, decide_eq_true_eq] at h2' ⊢
      rw [hc]
      simp only [decide_eq_true_eq]
      exact le_trans (h m hc) h2'
  | sales_min m' h =>
    intro a hm
    simp only [matchesFilters, Bool.and_eq_true] at hm ⊢
    obtain ⟨h10, h9, h8, h7, h6, h5, h4, h3, h2, h1⟩ := hm
    refine ⟨h10, h9, h8, h7, h6, h5, h4, ?_, h2, h1⟩
    cases hc : c.sales_min with
    | none => simp [salesMinPredB, hc]
    | some m =>
      have h3' : salesMinPredB { c with sales_min := some m' } a = true := h3
      simp only [salesMinPredB] at h3' ⊢
      rw [hc]
      cases ha : a.sales_last_12_months with
      | none => rw [ha] at h3'; exact h3'
      | some x =>
        rw [ha] at h3'
        simp only [decide_eq_true_eq] at h3' ⊢
        exact le_trans (h m hc) h3'
  | sales_max m' h =>
    intro a hm
    simp only [matchesFilters, Bool.and_eq_true] at hm ⊢
    obtain ⟨h10, h9, h8, h7, h6, h5, h4, h3, h2, h1⟩ := hm
    refine ⟨h10, h9, h8, h7, h6, h5, ?_, h3, h2, h1⟩
    cases hc : c.sales_max with
    | none => simp [salesMaxPredB, hc]
    | some m =>
      have h4' : salesMaxPredB { c with sales_max := some m' } a = true := h4
      simp only [salesMaxPredB] at h4' ⊢
      rw [hc]
      cases ha : a.sales_last_12_months with
      | none => rw [ha] at h4'; exact h4'
      | some x =>
        rw [ha] at h4'
        simp only [decide_eq_true_eq] at h4' ⊢
        exact le_trans h4' (h m hc)
  | years_experience_min m' h =>
    intro a hm
    simp only [matchesFilters, Bool.and_eq_true] at hm ⊢
    obtain ⟨h10, h9, h8, h7, h6, h5, h4, h3, h2, h1⟩ := hm
    refine ⟨h10, h9, h8, h7, h6, ?_, h4, h3, h2, h1⟩
    cases hc : c.years_experience_min with
    | none => simp [yearsPredB, hc]
    | some m =>
      have h5' : yearsPredB { c with years_experience_min := some m' } a =
        true := h5
      simp only [yearsPredB] at h5' ⊢
      rw [hc]
      cases ha : a.years_experience_min with
      | none => rw [ha] at h5'; exact h5'
      | some x =>
        rw [ha] at h5'
        simp only [decide_eq_true_eq] at h5' ⊢
        exact le_trans (h m hc) h5'
  | is_top_agent b h =>
    intro a hm
    simp only [matchesFilters, Bool.and_eq_true] at hm ⊢
    obtain ⟨h10, h9, h8, h7, h6, h5, h4, h3, h2, h1⟩ := hm
    exact ⟨h10, h9, h8, h7, by simp [topPredB, h], h5, h4, h3, h2, h1⟩
  | exclude_teams h =>
    intro a hm
    simp only [matchesFilters, Bool.and_eq_true] at hm ⊢
    obtain ⟨h10, h9, h8, h7, h6, h5, h4, h3, h2, h1⟩ := hm
    exact ⟨h10, h9, h8, by simp [teamsPredB, h], h6, h5, h4, h3, h2, h1⟩
  | agent_type t h =>
    intro a hm
    simp only [matchesFilters, Bool.and_eq_true] at hm ⊢
    obtain ⟨h10, h9, h8, h7, h6, h5, h4, h3, h2, h1⟩ := hm
    exact ⟨h10, h9, by simp [typePredB, h], h7, h6, h5, h4, h3, h2, h1⟩
  | specialties s' h =>
    intro a hm
    simp only [matchesFilters, Bool.and_eq_true] at hm ⊢
    obtain ⟨h10, h9, h8, h7, h6, h5, h4, h3, h2, h1⟩ := hm
    exact ⟨h10, by simp [specPredB, h], h8, h7, h6, h5, h4, h3, h2, h1⟩
  | languages s' h =>
    intro a hm
    simp only [matchesFilters, Bool.and_eq_true] at hm ⊢
    obtain ⟨h10, h9, h8, h7, h6, h5, h4, h3, h2, h1⟩ := hm
    exact ⟨by simp [langPredB, h], h9, h8, h7, h6, h5, h4, h3, h2, h1⟩

/-- Claim C5: tightening any single filter criterion (raising a floor,
lowering a ceiling, or newly enabling a predicate) yields a filtered output
that is a subset of — and never larger than — the looser output. -/
theorem apply_filters_monotone (c c' : SearchInput) (ht : Tightens c c')
    (l : List Agent) :
    apply_filters l c' ⊆ apply_filters l c ∧
    (apply_filters l c').length ≤ (apply_filters l c).length := by
  have hs : (apply_filters l c').Sublist (apply_filters l c) := by
    rw [apply_filters_eq, apply_filters_eq]
    exact List.monotone_filter_right l (matchesFilters_mono ht)
  exact ⟨hs.subset, hs.length_le⟩

/-- A third fixture: rated 3 with no sales data. -/
def agCara : Agent :=
  { agent_id := "C", profile_url := "/c", name := "Cara", rating := some 3 }

/-- A loose criteria record with no rating floor. -/
def cLoose : SearchInput := { state := some "CA" }

/-- The same criteria with a rating floor of 4 newly enabled. -/
def cTight : SearchInput := { cLoose with rating_min := some 4 }

/-- Witness for C5: newly enabling the rating floor on a three-agent list
yields a subset no larger than the loose output. -/
theorem apply_filters_monotone_witness :
    apply_filters [agAlice, agBob, agCara] cTight ⊆
      apply_filters [agAlice, agBob, agCara] cLoose ∧
    (apply_filters [agAlice, agBob, agCara] cTight).length ≤
      (apply_filters [agAlice, agBob, agCara] cLoose).length :=
  apply_filters_monotone cLoose cTight
    (Tightens.rating_min cLoose 4 fun _ hr => Option.noConfusion hr)
    [agAlice, agBob, agCara]

/-! ## C6: structure failures and pagination -/

/-- Claim C6 (amended): a StructureChanged page failure aborts the whole
run, not just that page — whenever the pagination loop actually fetches a
page that fails this way, the loop (and hence `searchAgents`, which
propagates the pagination error) returns the error, discarding any records
accumulated from earlier pages, regardless of the page number. -/
theorem structure_failure_aborts_run :
    (∀ (si : SearchInput) (env : Env) (fuel page : Nat) (acc : List Agent),
      acc.length < si.limit → page ≤ maxPages →
      env.page page = .error .structureChanged →
      paginateGo si env (fuel + 1) page acc =
        (.error .structureChanged, 1)) ∧
    (∀ (si : SearchInput) (env : Env) (n : Nat),
      si.validate_location = true →
      paginate si env = (.error .structureChanged, n) →
      (searchAgents si env).1 = .error .structureChanged) := by
  constructor
  · intro si env fuel page acc hacc hp herr
    simp only [paginateGo, if_pos (And.intro hacc hp), herr]
  · intro si env n hv hpag
    simp only [searchAgents, hv, Bool.not_true, Bool.false_eq_true,
      if_false, hpag]

/-- Criteria asking for two agents in California. -/
def siLimitTwo : SearchInput := { state := some "CA", limit := 2 }

/-- A page oracle whose first page holds one agent (of ten available) and
whose second page has a changed document structure. -/
def envPageTwoBreaks : Env where
  page := fun p =>
    if p = 1 then .ok ([agAlice], 10) else .error .structureChanged
  shuffle := id
  profile := fun a => .ok a

/-- Witness for C6 (amended): the loop hitting the broken second page with
one accumulated record aborts, and the whole run surfaces the error. -/
theorem structure_failure_aborts_run_witness :
    paginateGo siLimitTwo envPageTwoBreaks 100 2 [agAlice] =
      (.error .structureChanged, 1) ∧
    (searchAgents siLimitTwo envPageTwoBreaks).1 = .error .structureChanged :=
  ⟨structure_failure_aborts_run.1 siLimitTwo envPageTwoBreaks 99 2 [agAlice]
      (by decide) (by decide) (by decide),
    structure_failure_aborts_run.2 siLimitTwo envPageTwoBreaks 2
      (by decide) (by decide)⟩

/-- Counterexample to C6 as stated: page 1 succeeds with one record, page 2
fails with StructureChanged, and the run aborts with an error — the record
accumulated from page 1 is discarded rather than preserved and returned. -/
theorem structure_failure_second_page_discards :
    envPageTwoBreaks.page 1 = .ok ([agAlice], 10) ∧
    envPageTwoBreaks.page 2 = .error .structureChanged ∧
    searchAgents siLimitTwo envPageTwoBreaks =
      (.error .structureChanged, 2) := by decide

/-! ## C9: what the pipeline entry point returns -/

/-- Claim C9 (amended): on a successful run the pipeline entry point
returns exactly the ordered rows of the merged records that survive the
seen-set filter — and nothing else: histories inducing the same surviving
records give identical return values, so the duplicate-skip count is not
part of the return value (the source only prints it). -/
theorem scrape_agent_returns_rows_only (si : SearchInput) (skip : Bool)
    (hist : List String) (env : Env) (agents : List Agent) (n : Nat)
    (hv : si.validate_location = true)
    (hok : searchAgents si env = (.ok agents, n)) :
    scrape_agent si skip hist env =
      (.ok ((if skip && !agents.isEmpty then filter_new hist agents
        else agents).map toRow), n) ∧
    (∀ hist' : List String,
      filter_new hist' agents = filter_new hist agents →
      scrape_agent si skip hist' env = scrape_agent si skip hist env) := by
  constructor
  · simp only [scrape_agent, hv, Bool.not_true, Bool.false_eq_true,
      if_false, hok]
  · intro hist' hfe
    simp only [scrape_agent, hv, Bool.not_true, Bool.false_eq_true,
      if_false, hok, hfe]

/-- A page oracle returning a single agent, all of one available. -/
def envOneCandidate : Env where
  page := fun _ => .ok ([agAlice], 1)
  shuffle := id
  profile := fun a => .ok a

/-- A page oracle returning two agents, all of two available. -/
def envTwoCandidates : Env where
  page := fun _ => .ok ([agAlice, agBob], 2)
  shuffle := id
  profile := fun a => .ok a

/-- Witness for C9 (amended) at the one-candidate run with empty history. -/
theorem scrape_agent_returns_rows_only_witness :
    scrape_agent siLimitTwo true [] envOneCandidate =
      (.ok ((if true && !([agAlice].isEmpty) then filter_new [] [agAlice]
        else [agAlice]).map toRow), 1) :=
  (scrape_agent_returns_rows_only siLimitTwo true [] envOneCandidate
    [agAlice] 1 (by decide) (by decide)).1

/-- Counterexample to C9 as stated: two runs that skip different numbers of
candidates as duplicates (0 and 1) return identical values, so the return
value of the pipeline entry point carries no duplicate-skip count. -/
theorem scrape_agent_drops_dup_count :
    scrape_agent siLimitTwo true [] envOneCandidate =
      scrape_agent siLimitTwo true ["B"] envTwoCandidates ∧
    (searchAgents siLimitTwo envOneCandidate).1 = .ok [agAlice] ∧
    (searchAgents siLimitTwo envTwoCandidates).1 = .ok [agBob, agAlice] ∧
    dupSkipped [] [agAlice] = 0 ∧
    dupSkipped ["B"] [agBob, agAlice] = 1 := by decide
